import Mathlib

/-!
Verification of the pyresttest execution engine (retry policy, sync and
async performance dispatchers, run aggregator) against its specification.

The definitions below are a shallow embedding of the Python sources
`pyresttest/retry.py`, `pyresttest/performance.py` and
`pyresttest/performance_async.py`.  Network I/O is modelled by an attempt
oracle `att : Nat -> Outcome` giving, for each attempt index, either a
response (status plus wall-clock duration of the attempt in seconds) or a
transport error (with its duration).  Wall-clock time is an explicit
rational number threaded through the loops exactly where the source calls
`time.time()`; durations and backoff delays advance it.  Python floats are
modelled as rationals.
-/

/-- One attempt against the server, as seen by the executor: either a
response with a status code and the attempt's wall-clock duration in
seconds, or a transport error (a raised `RequestException` in the sync
code, any exception of `make_request` in the async code) with its
duration. -/
inductive Outcome where
  | ok (status : Nat) (dur : ℚ)
  | err (dur : ℚ)
deriving DecidableEq, Repr

/-- The wall-clock duration of an attempt, whether it produced a response
or a transport error. -/
def Outcome.dur : Outcome → ℚ
  | .ok _ d => d
  | .err d => d

/-- Embedding of `retry.py` class `RetryConfig` (fields set in
`__init__`, lines 15-29).  `max_retries` is an arbitrary integer because
the source performs no validation on it. -/
structure RetryConfig where
  max_retries : ℤ
  backoff_base : ℚ
  backoff_max : ℚ
  retry_statuses : List Nat
deriving DecidableEq, Repr

/-- Embedding of `RetryConfig.__init__` (retry.py lines 15-29).  The
constructor stores its arguments unchanged; the only logic is the Python
`retry_statuses or [500, 502, 503, 504]` default, whose truthiness also
replaces an explicitly passed empty list.  There is no validation of any
argument.  (`retry_exceptions` configures which Python exception types the
sync wrapper catches; the oracle model treats every transport error as one
of them, so the field is not carried.) -/
def RetryConfig.init (max_retries : ℤ) (backoff_base : ℚ) (backoff_max : ℚ)
    (retry_statuses : Option (List Nat)) : RetryConfig :=
  { max_retries := max_retries
    backoff_base := backoff_base
    backoff_max := backoff_max
    retry_statuses :=
      match retry_statuses with
      | some l => if l = [] then [500, 502, 503, 504] else l
      | none => [500, 502, 503, 504] }

/-- Embedding of `RetryConfig.get_backoff_delay` (retry.py lines 31-34):
`delay = backoff_base * 2 ** attempt; return min(delay, backoff_max)`. -/
def RetryConfig.get_backoff_delay (cfg : RetryConfig) (attempt : ℕ) : ℚ :=
  min (cfg.backoff_base * 2 ^ attempt) cfg.backoff_max

/-- Embedding of `should_retry` (retry.py lines 37-39):
`status_code in config.retry_statuses`. -/
def should_retry (status : Nat) (cfg : RetryConfig) : Bool :=
  cfg.retry_statuses.contains status

/-- Embedding of the test object consumed by the executors.  Validators
are capability objects exposing `validate(response, context) -> bool`;
since the response reaching a validator is determined by its status in
this model and the context is opaque and passed through unchanged, each
validator is modelled as a Boolean function of the response status. -/
structure TestSpec where
  url : String
  expected_status : List Nat
  validators : List (Nat → Bool)
  timeout : Option ℚ

/-- The record dict returned by `run_single_http_test`
(performance.py lines 80-85). -/
structure SyncRecord where
  status : Nat
  passed : Bool
  elapsed_ms : ℚ
  retries : Nat
deriving DecidableEq, Repr

/-- Embedding of the validator loop of `run_single_http_test`
(performance.py lines 74-78): `passed` starts true and the loop breaks at
the first validator returning false. -/
def runValidators : List (Nat → Bool) → Nat → Bool
  | [], _ => true
  | v :: vs, st => if v st then runValidators vs st else false

/-- How the retry loop of `run_single_http_test` terminates: either a
response is kept (break at line 55 or fall-through after the last
attempt), carrying the kept status, the elapsed seconds measured at line
71, and the retry count; or the final transport error is re-raised
(line 66). -/
inductive LoopExit where
  | kept (status : Nat) (elapsed : ℚ) (retries : Nat)
  | raised
deriving DecidableEq, Repr

/-- Embedding of the retry loop of `run_single_http_test`
(performance.py lines 41-66).  Arguments: current attempt index, fuel
(remaining loop iterations of `range(max_retries + 1)`), the current
wall-clock time, the value of `start` (reset at lines 51 and 63 right
after each backoff sleep), and `retries_attempted`.  A request advances
the clock by the attempt's duration; a retry additionally sleeps
`get_backoff_delay(attempt)` and then resets `start` to the clock. -/
def syncAttempts (cfg : RetryConfig) (att : ℕ → Outcome) :
    ℕ → ℕ → ℚ → ℚ → ℕ → LoopExit
  | _, 0, _, _, _ => .raised
  | a, fuel + 1, clock, start, r =>
    match att a with
    | .ok st dur =>
      if should_retry st cfg = true ∧ (a : ℤ) < cfg.max_retries then
        syncAttempts cfg att (a + 1) fuel
          (clock + dur + cfg.get_backoff_delay a)
          (clock + dur + cfg.get_backoff_delay a) (r + 1)
      else .kept st (clock + dur - start) r
    | .err dur =>
      if (a : ℤ) < cfg.max_retries then
        syncAttempts cfg att (a + 1) fuel
          (clock + dur + cfg.get_backoff_delay a)
          (clock + dur + cfg.get_backoff_delay a) (r + 1)
      else .raised

/-- Result of `run_single_http_test`: either the record dict, or a
propagated `RequestException` (the function re-raises on retry
exhaustion, and the no-retry path does not catch at all). -/
inductive SyncOutcome where
  | record (r : SyncRecord)
  | raised
deriving DecidableEq, Repr

/-- Embedding of the no-retry branch of `run_single_http_test`
(performance.py lines 67-69 followed by lines 71-85): a single
`make_request()` whose exception, if any, propagates. -/
def syncSingleAttempt (test : TestSpec) (att : ℕ → Outcome) (t0 : ℚ) :
    SyncOutcome :=
  match att 0 with
  | .ok st dur => .record ⟨st, runValidators test.validators st, dur * 1000, 0⟩
  | .err _ => .raised

/-- Embedding of `run_single_http_test` (performance.py lines 15-85).
The retry loop runs only when a config is supplied and
`max_retries > 0`; on a kept response, `elapsed_ms` is the elapsed
seconds times 1000 (line 71) and `passed` is the validator verdict
(lines 74-78).  Note that the response status is never compared against
`expected_status` on this path. -/
def run_single_http_test (test : TestSpec) (cfg? : Option RetryConfig)
    (att : ℕ → Outcome) (t0 : ℚ) : SyncOutcome :=
  match cfg? with
  | some cfg =>
    if 0 < cfg.max_retries then
      match syncAttempts cfg att 0 (cfg.max_retries.toNat + 1) t0 t0 0 with
      | .kept st e r => .record ⟨st, runValidators test.validators st, e * 1000, r⟩
      | .raised => .raised
    else syncSingleAttempt test att t0
  | none => syncSingleAttempt test att t0

/-- Embedding of `worker` inside `run_performance_test`
(performance.py lines 118-128): any exception escaping
`run_single_http_test` is replaced by the fixed record
`{status: 0, passed: False, elapsed_ms: 0, retries: 0}`. -/
def worker (test : TestSpec) (cfg? : Option RetryConfig)
    (att : ℕ → Outcome) (t0 : ℚ) : SyncRecord :=
  match run_single_http_test test cfg? att t0 with
  | .record r => r
  | .raised => ⟨0, false, 0, 0⟩

/-- Embedding of the fan-out of the sync dispatcher
(performance.py lines 130-133): `repeat` submissions of `worker`, each
request `i` seeing its own attempt oracle `atts i` and start time
`t0s i`.  The thread pool delivers records in completion order, a
permutation of this list; every claim below is invariant under
permutation of the record list. -/
def syncRun (test : TestSpec) (cfg? : Option RetryConfig)
    (atts : ℕ → ℕ → Outcome) (t0s : ℕ → ℚ) (rep : ℕ) : List SyncRecord :=
  (List.range rep).map fun i => worker test cfg? (atts i) (t0s i)

/-- Embedding of `AsyncPerformanceResult` (performance_async.py
lines 12-18). -/
structure AsyncResult where
  url : String
  status : Nat
  elapsed_ms : ℚ
  passed : Bool
  retries : Nat
deriving DecidableEq, Repr

/-- Embedding of the retry loop of `async_single_request`
(performance_async.py lines 54-82).  `elapsed_ms` is computed right
after each response (line 57) and right after the final failing attempt
(line 81); `start` is reset after each backoff sleep (lines 65 and 78).
A kept response yields `passed = resp.status in expected_status`
(line 69); exhaustion of retries by exceptions yields the failure record
of line 82.  The fuel-zero case is unreachable when fuel is the number
of remaining iterations of `range(max_retries + 1)`. -/
def asyncAttempts (test : TestSpec) (cfg : RetryConfig) (att : ℕ → Outcome) :
    ℕ → ℕ → ℚ → ℚ → ℕ → AsyncResult
  | _, 0, _, _, r => ⟨test.url, 0, 0, false, r⟩
  | a, fuel + 1, clock, start, r =>
    match att a with
    | .ok st dur =>
      if should_retry st cfg = true ∧ (a : ℤ) < cfg.max_retries then
        asyncAttempts test cfg att (a + 1) fuel
          (clock + dur + cfg.get_backoff_delay a)
          (clock + dur + cfg.get_backoff_delay a) (r + 1)
      else ⟨test.url, st, (clock + dur - start) * 1000,
            test.expected_status.contains st, r⟩
    | .err dur =>
      if (a : ℤ) < cfg.max_retries then
        asyncAttempts test cfg att (a + 1) fuel
          (clock + dur + cfg.get_backoff_delay a)
          (clock + dur + cfg.get_backoff_delay a) (r + 1)
      else ⟨test.url, 0, (clock + dur - start) * 1000, false, r⟩

/-- Embedding of the no-retry branch of `async_single_request`
(performance_async.py lines 83-93): a single attempt whose exception is
caught locally and becomes a failure record. -/
def asyncNoRetry (test : TestSpec) (att : ℕ → Outcome) (t0 : ℚ) :
    AsyncResult :=
  match att 0 with
  | .ok st dur =>
    ⟨test.url, st, dur * 1000, test.expected_status.contains st, 0⟩
  | .err dur => ⟨test.url, 0, dur * 1000, false, 0⟩

/-- Embedding of `async_single_request` (performance_async.py
lines 21-93). -/
def async_single_request (test : TestSpec) (cfg? : Option RetryConfig)
    (att : ℕ → Outcome) (t0 : ℚ) : AsyncResult :=
  match cfg? with
  | some cfg =>
    if 0 < cfg.max_retries then
      asyncAttempts test cfg att 0 (cfg.max_retries.toNat + 1) t0 t0 0
    else asyncNoRetry test att t0
  | none => asyncNoRetry test att t0

/-- Embedding of the fan-out of the async dispatcher
(performance_async.py lines 138-148): `repeat` tasks each running
`async_single_request`; results are collected in completion order, a
permutation of this list. -/
def asyncRun (test : TestSpec) (cfg? : Option RetryConfig)
    (atts : ℕ → ℕ → Outcome) (t0s : ℕ → ℚ) (rep : ℕ) : List AsyncResult :=
  (List.range rep).map fun i => async_single_request test cfg? (atts i) (t0s i)

/-- Embedding of the performance configuration mapping read by both
dispatchers (`test.performance`).  Absent keys are `none`; `repeat` and
`concurrency` are passed separately where needed.  `percentiles` models
the first `percentiles` entry found in the `metrics` list
(performance.py lines 190-196). -/
structure PerfSpec where
  mode : Option String
  threshold_ms : Option ℚ
  rps_mode : Option String
  percentiles : Option (List ℚ)
  timeout : Option ℚ
  connect_timeout : Option ℚ
deriving DecidableEq, Repr

/-- The per-attempt deadline passed to the transport by the sync
executor (performance.py lines 36-37):
`timeout=getattr(test, 'timeout', 30)`. -/
def syncRequestTimeout (test : TestSpec) : ℚ :=
  test.timeout.getD 30

/-- The total request deadline configured by the async dispatcher
(performance_async.py lines 114-117):
`aiohttp.ClientTimeout(total=perf.get('timeout', 300), ...)`. -/
def asyncTotalTimeout (perf : PerfSpec) : ℚ :=
  perf.timeout.getD 300

/-- The connection deadline configured by the async dispatcher
(performance_async.py line 116): `connect=perf.get('connect_timeout', 10)`. -/
def asyncConnectTimeout (perf : PerfSpec) : ℚ :=
  perf.connect_timeout.getD 10

/-- Python `min(times)` guarded by `if times else 0`
(performance.py line 158). -/
def listMin : List ℚ → ℚ
  | [] => 0
  | x :: xs => xs.foldl min x

/-- Python `max(times)` guarded by `if times else 0`
(performance.py line 159). -/
def listMax : List ℚ → ℚ
  | [] => 0
  | x :: xs => xs.foldl max x

/-- Python `sum(times) / len(times) if times else 0`
(performance.py line 160). -/
def listAvg (l : List ℚ) : ℚ :=
  if l = [] then 0 else l.sum / l.length

/-- Embedding of the RPS computation (performance.py lines 146-152). -/
def computeRps (rps_mode : Option String) (rep : ℕ) (times : List ℚ)
    (wall : ℚ) : ℚ :=
  if rps_mode.getD "wall" = "response" then
    if 0 < listAvg times then 1000 / listAvg times else 0
  else if 0 < wall then (rep : ℚ) / wall else 0

/-- The linear-interpolation step of `_percentile`
(performance.py lines 198-206) as a function of the already computed
rank `k`: `f = int(k)` (truncation, equal to the floor since `k >= 0` on
every reachable input), `c = min(f + 1, len(s) - 1)`, then either
`s[f]` or `s[f] * (c - k) + s[c] * (k - f)`. -/
def pctK (s : List ℚ) (k : ℚ) : ℚ :=
  if (⌊k⌋).toNat = min ((⌊k⌋).toNat + 1) (s.length - 1) then
    s.getD (⌊k⌋).toNat 0
  else
    s.getD (⌊k⌋).toNat 0 * ((min ((⌊k⌋).toNat + 1) (s.length - 1) : ℕ) - k)
      + s.getD (min ((⌊k⌋).toNat + 1) (s.length - 1)) 0 * (k - ((⌊k⌋).toNat : ℚ))

/-- Embedding of `_percentile(sorted_times, p)`
(performance.py lines 198-206), with the rank
`k = (len(sorted_times) - 1) * (p / 100.0)` of line 199. -/
def pctCode (s : List ℚ) (p : ℚ) : ℚ :=
  pctK s (((s.length : ℚ) - 1) * (p / 100))

/-- The percentile formula as worded by the specification (spec section
4.5): `k = (len(s) - 1) * p / 100`, `f = floor(k)`, `c = ceil(k)`;
`s[k]` when `f = c`, else `s[f] * (c - k) + s[c] * (k - f)`.  Stated
separately from `pctCode` so the two can be compared. -/
def pctSpec (s : List ℚ) (p : ℚ) : ℚ :=
  if (⌊((s.length : ℚ) - 1) * (p / 100)⌋).toNat
      = (⌈((s.length : ℚ) - 1) * (p / 100)⌉).toNat then
    s.getD (⌊((s.length : ℚ) - 1) * (p / 100)⌋).toNat 0
  else
    s.getD (⌊((s.length : ℚ) - 1) * (p / 100)⌋).toNat 0
        * (((⌈((s.length : ℚ) - 1) * (p / 100)⌉).toNat : ℚ)
            - ((s.length : ℚ) - 1) * (p / 100))
      + s.getD (⌈((s.length : ℚ) - 1) * (p / 100)⌉).toNat 0
        * (((s.length : ℚ) - 1) * (p / 100)
            - ((⌊((s.length : ℚ) - 1) * (p / 100)⌋).toNat : ℚ))

/-- The summary dict built by the sync dispatcher
(performance.py lines 154-168 and 197-210).  `threshold_exceeded` and
the percentile fields are optional: `none` and `[]` model their absence
from the dict. -/
structure SyncSummary where
  total : ℕ
  passed : ℕ
  failed : ℕ
  min_ms : ℚ
  max_ms : ℚ
  avg_ms : ℚ
  wall_time_sec : ℚ
  rps : ℚ
  total_retries : ℕ
  avg_retries_per_request : ℚ
  threshold_exceeded : Option ℕ
  pct_fields : List (ℚ × ℚ)
deriving DecidableEq, Repr

/-- Embedding of the aggregation in `run_performance_test`
(performance.py lines 139-168 and 190-210).  `if threshold:` is Python
truthiness: the key is added only when `threshold_ms` is present and
nonzero.  Percentile fields are added only when a nonempty `percentiles`
list was requested and `times` is nonempty (`if percentiles and times:`),
each computed by `_percentile` over `sorted(times)` (modelled by
`insertionSort`, which produces the same sorted list). -/
def syncSummary (perf : PerfSpec) (rep : ℕ) (results : List SyncRecord)
    (wall : ℚ) : SyncSummary :=
  { total := rep
    passed := (results.filter (fun r => r.passed)).length
    failed := (results.filter (fun r => !r.passed)).length
    min_ms := listMin (results.map (fun r => r.elapsed_ms))
    max_ms := listMax (results.map (fun r => r.elapsed_ms))
    avg_ms := listAvg (results.map (fun r => r.elapsed_ms))
    wall_time_sec := wall
    rps := computeRps perf.rps_mode rep (results.map (fun r => r.elapsed_ms)) wall
    total_retries := (results.map (fun r => r.retries)).sum
    avg_retries_per_request :=
      if 0 < rep then ((results.map (fun r => r.retries)).sum : ℚ) / rep else 0
    threshold_exceeded :=
      match perf.threshold_ms with
      | some t =>
        if t = 0 then none
        else some ((results.map (fun r => r.elapsed_ms)).filter
          (fun x => decide (t < x))).length
      | none => none
    pct_fields :=
      match perf.percentiles with
      | some ps =>
        if ps ≠ [] ∧ results.map (fun r => r.elapsed_ms) ≠ [] then
          ps.map fun p =>
            (p, pctCode ((results.map (fun r => r.elapsed_ms)).insertionSort (· ≤ ·)) p)
        else []
      | none => [] }

/-- The summary dict built by the async dispatcher
(performance_async.py lines 174-208).  Note it has no
`threshold_exceeded` key: the async aggregation never computes one. -/
structure AsyncSummary where
  total : ℕ
  passed : ℕ
  failed : ℕ
  min_ms : ℚ
  max_ms : ℚ
  avg_ms : ℚ
  wall_time_sec : ℚ
  rps : ℚ
  total_retries : ℕ
  avg_retries_per_request : ℚ
  pct_fields : List (ℚ × ℚ)
deriving DecidableEq, Repr

/-- Embedding of the aggregation in `run_async_performance`
(performance_async.py lines 156-208).  This summary is printed and
optionally written to a file, but never returned to the caller. -/
def asyncSummary (perf : PerfSpec) (results : List AsyncResult)
    (wall : ℚ) : AsyncSummary :=
  { total := results.length
    passed := (results.filter (fun r => r.passed)).length
    failed := (results.filter (fun r => !r.passed)).length
    min_ms := listMin (results.map (fun r => r.elapsed_ms))
    max_ms := listMax (results.map (fun r => r.elapsed_ms))
    avg_ms := listAvg (results.map (fun r => r.elapsed_ms))
    wall_time_sec := wall
    rps := computeRps perf.rps_mode results.length (results.map (fun r => r.elapsed_ms)) wall
    total_retries := (results.map (fun r => r.retries)).sum
    avg_retries_per_request :=
      if results ≠ [] then ((results.map (fun r => r.retries)).sum : ℚ) / results.length else 0
    pct_fields :=
      match perf.percentiles with
      | some ps =>
        if ps ≠ [] ∧ results.map (fun r => r.elapsed_ms) ≠ [] then
          ps.map fun p =>
            (p, pctCode ((results.map (fun r => r.elapsed_ms)).insertionSort (· ≤ ·)) p)
        else []
      | none => [] }

/-- What `run_performance_test` hands back to its caller: the summary
dict on the sync path, or the raw list of per-request results on the
async path. -/
inductive RunResult where
  | summary (s : SyncSummary)
  | records (rs : List AsyncResult)
deriving DecidableEq, Repr

/-- The maximum number of retries an executor may perform under an
optional retry configuration. -/
def maxRetriesNat : Option RetryConfig → ℕ
  | some cfg => cfg.max_retries.toNat
  | none => 0

/-- Embedding of the mode dispatch of `run_performance_test`
(performance.py lines 107-111 and 113-226): with
`mode = perf.get('mode', 'sync')`, the async path delegates to
`execute_async_performance`, which returns the result list of
`run_async_performance` (performance_async.py lines 243 and 259); the
sync path aggregates the worker records and returns the summary dict
(performance.py line 226). -/
def run_performance_test (test : TestSpec) (perf : PerfSpec)
    (cfg? : Option RetryConfig) (atts : ℕ → ℕ → Outcome) (t0s : ℕ → ℚ)
    (rep : ℕ) (wall : ℚ) : RunResult :=
  if perf.mode.getD "sync" = "async" then
    .records (asyncRun test cfg? atts t0s rep)
  else
    .summary (syncSummary perf rep (syncRun test cfg? atts t0s rep) wall)

/-- A minimal test fixture: default expected status `[200]`, no
validators, no explicit timeout. -/
def cxTest : TestSpec := ⟨"u", [200], [], none⟩

/-- A test fixture with an explicit 5 second per-attempt timeout. -/
def cxTest5 : TestSpec := ⟨"u", [200], [], some 5⟩

/-- A retry configuration with 2 retries, 0.01 s base backoff and
`[500]` as the retryable statuses. -/
def cfg2v : RetryConfig := ⟨2, 1/100, 30, [500]⟩

/-- A performance mapping with every key absent. -/
def perfEmpty : PerfSpec := ⟨none, none, none, none, none, none⟩

/-- An attempt oracle whose first attempt is a retryable 500 taking 3 s
and whose later attempts are a 200 taking 7 s. -/
def attRetryThenOk : ℕ → Outcome :=
  fun j => if j = 0 then .ok 500 3 else .ok 200 7

/-- If the sync retry loop keeps a response, the kept status and elapsed
seconds come from the attempt whose index equals the final retry count,
the retry count grows by less than the remaining fuel, and a kept
retryable status means the retry budget was exhausted.  The loop is
entered with `clock = start` and `attempt = retries_attempted`, and both
invariants are maintained by every retry step. -/
theorem syncAttempts_kept (cfg : RetryConfig) (att : ℕ → Outcome) :
    ∀ (fuel a r : ℕ) (start : ℚ) (st : ℕ) (e : ℚ) (r' : ℕ),
      a = r →
      syncAttempts cfg att a fuel start start r = .kept st e r' →
      r ≤ r' ∧ r' < r + fuel ∧ att r' = .ok st e ∧
        (should_retry st cfg = true → ¬((r' : ℤ) < cfg.max_retries)) := by
  intro fuel
  induction fuel with
  | zero =>
    intro a r start st e r' _ h
    simp [syncAttempts] at h
  | succ fuel ih =>
    intro a r start st e r' har h
    rw [syncAttempts] at h
    cases hatt : att a with
    | ok st0 dur =>
      rw [hatt] at h
      dsimp only at h
      by_cases hc : should_retry st0 cfg = true ∧ (a : ℤ) < cfg.max_retries
      · rw [if_pos hc] at h
        obtain ⟨h1, h2, h3, h4⟩ := ih (a + 1) (r + 1) _ st e r' (by omega) h
        exact ⟨by omega, by omega, h3, h4⟩
      · rw [if_neg hc] at h
        obtain ⟨hst, he, hr⟩ := LoopExit.kept.inj h
        subst hst; subst hr
        refine ⟨le_refl _, by omega, ?_, ?_⟩
        · have : e = dur := by rw [← he]; ring
          rw [← har, hatt, this]
        · intro hsr hlt
          exact hc ⟨hsr, by rwa [har]⟩
    | err dur =>
      rw [hatt] at h
      dsimp only at h
      by_cases hc : (a : ℤ) < cfg.max_retries
      · rw [if_pos hc] at h
        obtain ⟨h1, h2, h3, h4⟩ := ih (a + 1) (r + 1) _ st e r' (by omega) h
        exact ⟨by omega, by omega, h3, h4⟩
      · rw [if_neg hc] at h
        exact absurd h (by simp)

/-- If every attempt raises a transport error, the sync retry loop ends
by re-raising (performance.py line 66), whatever the fuel. -/
theorem syncAttempts_raised_of_allErr (cfg : RetryConfig) (att : ℕ → Outcome)
    (herr : ∀ j, ∃ dd, att j = .err dd) :
    ∀ (fuel a r : ℕ) (clock start : ℚ),
      syncAttempts cfg att a fuel clock start r = .raised := by
  intro fuel
  induction fuel with
  | zero => intro a r clock start; rfl
  | succ fuel ih =>
    intro a r clock start
    obtain ⟨dd, hd⟩ := herr a
    rw [syncAttempts, hd]
    dsimp only
    by_cases hc : (a : ℤ) < cfg.max_retries
    · rw [if_pos hc]; exact ih _ _ _ _
    · rw [if_neg hc]

/-- If every attempt returns the same retryable status, the sync retry
loop retries until the budget is exhausted and keeps the last response:
the kept elapsed seconds are the last attempt's duration and the retry
count grows by fuel minus one. -/
theorem syncAttempts_const_retry (cfg : RetryConfig) (att : ℕ → Outcome)
    (s : ℕ) (d : ℕ → ℚ) (hs : ∀ j, att j = .ok s (d j))
    (hr : should_retry s cfg = true) :
    ∀ (fuel a r : ℕ) (start : ℚ),
      0 < fuel → (a : ℤ) + (fuel : ℤ) = cfg.max_retries + 1 →
      syncAttempts cfg att a fuel start start r
        = .kept s (d (a + fuel - 1)) (r + fuel - 1) := by
  intro fuel
  induction fuel with
  | zero => intro a r start h0 _; exact absurd h0 (lt_irrefl 0)
  | succ fuel ih =>
    intro a r start _ hf
    rw [syncAttempts, hs a]
    dsimp only
    rcases Nat.eq_zero_or_pos fuel with hz | hpos
    · subst hz
      have hna : ¬ (a : ℤ) < cfg.max_retries := by omega
      rw [if_neg (fun hc => hna hc.2)]
      have he : start + d a - start = d a := by ring
      have ha : a + (0 + 1) - 1 = a := by omega
      have hb : r + (0 + 1) - 1 = r := by omega
      rw [he, ha, hb]
    · have hlt : (a : ℤ) < cfg.max_retries := by omega
      have harg : ((a + 1 : ℕ) : ℤ) + (fuel : ℤ) = cfg.max_retries + 1 := by
        push_cast at hf ⊢
        omega
      rw [if_pos ⟨hr, hlt⟩, ih (a + 1) (r + 1) _ hpos harg]
      have ha : a + 1 + fuel - 1 = a + (fuel + 1) - 1 := by omega
      have hb : r + 1 + fuel - 1 = r + (fuel + 1) - 1 := by omega
      rw [ha, hb]

/-- Characterisation of the async retry loop.  The result's retry count
names the final attempt; if that attempt was a response, the record
carries its status, `passed` is membership of the status in
`expected_status`, and `elapsed_ms` is that attempt's duration times
1000 (a kept retryable status implies an exhausted budget); if it was a
transport error, the record has status 0, `passed = false`, the final
attempt's duration, and an exhausted budget. -/
theorem asyncAttempts_spec (test : TestSpec) (cfg : RetryConfig)
    (att : ℕ → Outcome) :
    ∀ (fuel a r : ℕ) (start : ℚ) (res : AsyncResult),
      a = r → 0 < fuel → (a : ℤ) + (fuel : ℤ) = cfg.max_retries + 1 →
      asyncAttempts test cfg att a fuel start start r = res →
      r ≤ res.retries ∧ res.retries < r + fuel ∧ res.url = test.url ∧
      (match att res.retries with
       | .ok st dd =>
           res.status = st
           ∧ res.passed = test.expected_status.contains st
           ∧ res.elapsed_ms = dd * 1000
           ∧ (should_retry st cfg = true → ¬((res.retries : ℤ) < cfg.max_retries))
       | .err dd =>
           res.status = 0 ∧ res.passed = false
           ∧ res.elapsed_ms = dd * 1000
           ∧ ¬((res.retries : ℤ) < cfg.max_retries)) := by
  intro fuel
  induction fuel with
  | zero =>
    intro a r start res _ h0
    exact absurd h0 (lt_irrefl 0)
  | succ fuel ih =>
    intro a r start res har _ hf h
    rw [asyncAttempts] at h
    cases hatt : att a with
    | ok st0 dur =>
      rw [hatt] at h
      dsimp only at h
      by_cases hc : should_retry st0 cfg = true ∧ (a : ℤ) < cfg.max_retries
      · rw [if_pos hc] at h
        have hpos : 0 < fuel := by omega
        obtain ⟨h1, h2, h3, h4⟩ :=
          ih (a + 1) (r + 1) _ res (by omega) hpos (by push_cast at hf ⊢; omega) h
        exact ⟨by omega, by omega, h3, h4⟩
      · subst har
        rw [if_neg hc] at h
        subst h
        refine ⟨le_refl _, by dsimp only; omega, rfl, ?_⟩
        rw [hatt]
        refine ⟨rfl, rfl, by dsimp only; ring, ?_⟩
        intro hsr hlt
        exact hc ⟨hsr, by dsimp only at hlt; exact hlt⟩
    | err dur =>
      rw [hatt] at h
      dsimp only at h
      by_cases hc : (a : ℤ) < cfg.max_retries
      · rw [if_pos hc] at h
        have hpos : 0 < fuel := by omega
        obtain ⟨h1, h2, h3, h4⟩ :=
          ih (a + 1) (r + 1) _ res (by omega) hpos (by push_cast at hf ⊢; omega) h
        exact ⟨by omega, by omega, h3, h4⟩
      · subst har
        rw [if_neg hc] at h
        subst h
        refine ⟨le_refl _, by dsimp only; omega, rfl, ?_⟩
        rw [hatt]
        exact ⟨rfl, rfl, by dsimp only; ring, fun hlt => hc (by dsimp only at hlt; exact hlt)⟩

/-- Specialisation of the async loop characterisation to
`async_single_request` when the retry loop is active
(`max_retries > 0`). -/
theorem async_single_spec (test : TestSpec) (cfg : RetryConfig)
    (att : ℕ → Outcome) (t0 : ℚ) (hm : 0 < cfg.max_retries) :
    (async_single_request test (some cfg) att t0).retries ≤ cfg.max_retries.toNat ∧
    (async_single_request test (some cfg) att t0).url = test.url ∧
    (match att (async_single_request test (some cfg) att t0).retries with
     | .ok st dd =>
         (async_single_request test (some cfg) att t0).status = st
         ∧ (async_single_request test (some cfg) att t0).passed
             = test.expected_status.contains st
         ∧ (async_single_request test (some cfg) att t0).elapsed_ms = dd * 1000
         ∧ (should_retry st cfg = true →
             (async_single_request test (some cfg) att t0).retries
               = cfg.max_retries.toNat)
     | .err dd =>
         (async_single_request test (some cfg) att t0).status = 0
         ∧ (async_single_request test (some cfg) att t0).passed = false
         ∧ (async_single_request test (some cfg) att t0).elapsed_ms = dd * 1000
         ∧ (async_single_request test (some cfg) att t0).retries
             = cfg.max_retries.toNat) := by
  have hres :
      asyncAttempts test cfg att 0 (cfg.max_retries.toNat + 1) t0 t0 0
        = async_single_request test (some cfg) att t0 := by
    rw [async_single_request, if_pos hm]
  obtain ⟨h1, h2, h3, h4⟩ :=
    asyncAttempts_spec test cfg att (cfg.max_retries.toNat + 1) 0 0 t0
      (async_single_request test (some cfg) att t0) rfl (by omega)
      (by push_cast [Int.toNat_of_nonneg hm.le]; ring) hres
  have hle : (async_single_request test (some cfg) att t0).retries
      ≤ cfg.max_retries.toNat := by omega
  refine ⟨hle, h3, ?_⟩
  cases hatt : att (async_single_request test (some cfg) att t0).retries with
  | ok st0 dur =>
    rw [hatt] at h4
    obtain ⟨ha, hb, hcc, hd⟩ := h4
    refine ⟨ha, hb, hcc, fun hsr => ?_⟩
    have := hd hsr
    omega
  | err dur =>
    rw [hatt] at h4
    obtain ⟨ha, hb, hcc, hd⟩ := h4
    exact ⟨ha, hb, hcc, by omega⟩

/-- Every record emitted by the sync worker has
`retries ≤ max_retries`. -/
theorem worker_retries_le (test : TestSpec) (cfg? : Option RetryConfig)
    (att : ℕ → Outcome) (t0 : ℚ) :
    (worker test cfg? att t0).retries ≤ maxRetriesNat cfg? := by
  cases cfg? with
  | none =>
    rw [worker, run_single_http_test, syncSingleAttempt]
    cases att 0 <;> simp
  | some cfg =>
    by_cases hm : 0 < cfg.max_retries
    · rw [worker, run_single_http_test, if_pos hm]
      cases hk : syncAttempts cfg att 0 (cfg.max_retries.toNat + 1) t0 t0 0 with
      | kept st e r' =>
        obtain ⟨h1, h2, h3, h4⟩ := syncAttempts_kept cfg att _ 0 0 t0 st e r' rfl hk
        simpa [maxRetriesNat] using by omega
      | raised => simp [maxRetriesNat]
    · rw [worker, run_single_http_test, if_neg hm, syncSingleAttempt]
      cases att 0 <;> simp

/-- Every record emitted by the async executor has
`retries ≤ max_retries`. -/
theorem async_retries_le (test : TestSpec) (cfg? : Option RetryConfig)
    (att : ℕ → Outcome) (t0 : ℚ) :
    (async_single_request test cfg? att t0).retries ≤ maxRetriesNat cfg? := by
  cases cfg? with
  | none =>
    rw [async_single_request, asyncNoRetry]
    cases att 0 <;> simp
  | some cfg =>
    by_cases hm : 0 < cfg.max_retries
    · simpa [maxRetriesNat] using (async_single_spec test cfg att t0 hm).1
    · rw [async_single_request, if_neg hm, asyncNoRetry]
      cases att 0 <;> simp

/-- Claim C3: for every retry configuration and attempt number, the
backoff delay is `min(backoff_base * 2 ^ attempt, backoff_max)`; under
the specification's field constraints `0 ≤ backoff_base ≤ backoff_max`,
the delay at attempt 0 is `backoff_base` (not zero), never exceeds
`backoff_max`, and is non-decreasing in the attempt number. -/
theorem c3_backoff_formula (cfg : RetryConfig) (a : ℕ)
    (hb : 0 ≤ cfg.backoff_base) (hm : cfg.backoff_base ≤ cfg.backoff_max) :
    cfg.get_backoff_delay a = min (cfg.backoff_base * 2 ^ a) cfg.backoff_max
    ∧ cfg.get_backoff_delay 0 = cfg.backoff_base
    ∧ cfg.get_backoff_delay a ≤ cfg.backoff_max
    ∧ cfg.get_backoff_delay a ≤ cfg.get_backoff_delay (a + 1) := by
  refine ⟨rfl, ?_, min_le_right _ _, ?_⟩
  · rw [RetryConfig.get_backoff_delay]
    rw [pow_zero, mul_one]
    exact min_eq_left hm
  · apply min_le_min _ le_rfl
    apply mul_le_mul_of_nonneg_left _ hb
    exact pow_le_pow_right₀ (by norm_num) (Nat.le_succ a)

/-- Witness for C3 at a concrete configuration
(`max_retries = 3`, `backoff_base = 0.5`, `backoff_max = 30`) and
attempt 2. -/
theorem c3_backoff_formula_witness :
    RetryConfig.get_backoff_delay ⟨3, 1/2, 30, [500, 502, 503, 504]⟩ 2
        = min ((1/2 : ℚ) * 2 ^ 2) 30
      ∧ RetryConfig.get_backoff_delay ⟨3, 1/2, 30, [500, 502, 503, 504]⟩ 0 = 1/2
      ∧ RetryConfig.get_backoff_delay ⟨3, 1/2, 30, [500, 502, 503, 504]⟩ 2 ≤ 30
      ∧ RetryConfig.get_backoff_delay ⟨3, 1/2, 30, [500, 502, 503, 504]⟩ 2
        ≤ RetryConfig.get_backoff_delay ⟨3, 1/2, 30, [500, 502, 503, 504]⟩ 3 :=
  c3_backoff_formula ⟨3, 1/2, 30, [500, 502, 503, 504]⟩ 2 (by norm_num) (by norm_num)

/-- Claim C9 counterexample: constructing a retry policy with
`max_retries = -1` does not fail; it returns a fully usable
`RetryConfig` whose fields are stored verbatim and whose backoff
computation works.  No `InvalidConfig` error exists anywhere in the
source. -/
theorem c9_counterexample :
    RetryConfig.init (-1) (1/2) 30 none
        = ⟨-1, 1/2, 30, [500, 502, 503, 504]⟩
      ∧ (RetryConfig.init (-1) (1/2) 30 none).get_backoff_delay 0 = 1/2 := by
  refine ⟨rfl, ?_⟩
  rw [RetryConfig.get_backoff_delay, pow_zero, mul_one]
  exact min_eq_left (by norm_num [RetryConfig.init])

/-- Claim C9 as amended: `RetryConfig.__init__` performs no validation
whatsoever — every `max_retries` value, negative included, yields a
policy object carrying that value; a non-positive `max_retries` merely
makes both executors skip the retry loop and issue a single attempt. -/
theorem c9_no_validation (m : ℤ) (b bm : ℚ) (rs : Option (List Nat)) :
    (RetryConfig.init m b bm rs).max_retries = m
    ∧ (m ≤ 0 → ∀ (test : TestSpec) (att : ℕ → Outcome) (t0 : ℚ),
        run_single_http_test test (some (RetryConfig.init m b bm rs)) att t0
            = syncSingleAttempt test att t0
          ∧ async_single_request test (some (RetryConfig.init m b bm rs)) att t0
            = asyncNoRetry test att t0) := by
  refine ⟨rfl, fun hm test att t0 => ?_⟩
  have h : ¬ (0 : ℤ) < (RetryConfig.init m b bm rs).max_retries := not_lt.mpr hm
  rw [run_single_http_test, if_neg h, async_single_request, if_neg h]
  exact ⟨rfl, rfl⟩

/-- Witness for C9 as amended, at `max_retries = -1` and a concrete
oracle: the constructed policy stores `-1` and the sync executor takes
the single-attempt path. -/
theorem c9_no_validation_witness :
    (RetryConfig.init (-1) (1/2) 30 none).max_retries = -1
    ∧ run_single_http_test cxTest (some (RetryConfig.init (-1) (1/2) 30 none))
        (fun _ => Outcome.ok 200 2) 0
      = syncSingleAttempt cxTest (fun _ => Outcome.ok 200 2) 0 :=
  ⟨(c9_no_validation (-1) (1/2) 30 none).1,
   ((c9_no_validation (-1) (1/2) 30 none).2 (by norm_num) cxTest
     (fun _ => Outcome.ok 200 2) 0).1⟩

/-- On the single-attempt path, the emitted record carries the validator
verdict as `passed`. -/
theorem syncSingle_passed (test : TestSpec) (att : ℕ → Outcome) (t0 : ℚ) :
    ∀ rec, syncSingleAttempt test att t0 = .record rec →
      rec.passed = runValidators test.validators rec.status := by
  intro rec h
  rw [syncSingleAttempt] at h
  cases hatt : att 0 with
  | ok st dur =>
    rw [hatt] at h
    obtain h5 := SyncOutcome.record.inj h
    rw [← h5]
  | err dur =>
    rw [hatt] at h
    exact absurd h (by simp)

/-- Characterisation of the async no-retry path. -/
theorem asyncNoRetry_spec (test : TestSpec) (att : ℕ → Outcome) (t0 : ℚ) :
    (asyncNoRetry test att t0).retries = 0 ∧
    (match att 0 with
     | .ok st dd =>
         (asyncNoRetry test att t0).status = st
         ∧ (asyncNoRetry test att t0).passed = test.expected_status.contains st
         ∧ (asyncNoRetry test att t0).elapsed_ms = dd * 1000
     | .err dd =>
         (asyncNoRetry test att t0).status = 0
         ∧ (asyncNoRetry test att t0).passed = false
         ∧ (asyncNoRetry test att t0).elapsed_ms = dd * 1000) := by
  rw [asyncNoRetry]
  cases hatt : att 0 <;> exact ⟨rfl, rfl, rfl, rfl⟩

/-- Claim C1 counterexample: in the parallel-workers mode, a kept 404
response against `expected_status = [200]` with no validators yields
`passed = true`, while the claim's pass criterion
(`status ∈ expected_status ∧ all validators`) demands `false`:
the sync executor never consults `expected_status`. -/
theorem c1_counterexample :
    run_single_http_test cxTest none (fun _ => Outcome.ok 404 1) 0
        = .record ⟨404, true, 1000, 0⟩
      ∧ cxTest.expected_status.contains 404 = false := by
  constructor
  · norm_num [run_single_http_test, syncSingleAttempt, runValidators, cxTest]
  · decide

/-- Claim C1 as amended: for a kept response, the parallel-workers
executor sets `passed` to the validators' short-circuit conjunction only
(membership of the status in `expected_status` is not checked), while
the cooperative-async executor sets `passed` to membership of the status
in `expected_status` only (validators are never evaluated). -/
theorem c1_passed_semantics (test : TestSpec) (cfg? : Option RetryConfig)
    (att : ℕ → Outcome) (t0 : ℚ) :
    (∀ rec, run_single_http_test test cfg? att t0 = .record rec →
      rec.passed = runValidators test.validators rec.status)
    ∧ (∀ st dd,
        att (async_single_request test cfg? att t0).retries = .ok st dd →
        (async_single_request test cfg? att t0).status = st
        ∧ (async_single_request test cfg? att t0).passed
            = test.expected_status.contains st) := by
  constructor
  · intro rec h
    cases cfg? with
    | none =>
      simp only [run_single_http_test] at h
      exact syncSingle_passed test att t0 rec h
    | some cfg =>
      by_cases hm : 0 < cfg.max_retries
      · rw [run_single_http_test, if_pos hm] at h
        cases hk : syncAttempts cfg att 0 (cfg.max_retries.toNat + 1) t0 t0 0 with
        | kept st e r' =>
          rw [hk] at h
          obtain h5 := SyncOutcome.record.inj h
          rw [← h5]
        | raised =>
          rw [hk] at h
          exact absurd h (by simp)
      · rw [run_single_http_test, if_neg hm] at h
        exact syncSingle_passed test att t0 rec h
  · intro st dd hok
    cases cfg? with
    | none =>
      obtain ⟨hr0, hsp⟩ := asyncNoRetry_spec test att t0
      simp only [async_single_request] at hok ⊢
      rw [hr0] at hok
      rw [hok] at hsp
      exact ⟨hsp.1, hsp.2.1⟩
    | some cfg =>
      by_cases hm : 0 < cfg.max_retries
      · obtain ⟨h1, h2, h3⟩ := async_single_spec test cfg att t0 hm
        rw [hok] at h3
        exact ⟨h3.1, h3.2.1⟩
      · obtain ⟨hr0, hsp⟩ := asyncNoRetry_spec test att t0
        rw [async_single_request, if_neg hm] at hok ⊢
        rw [hr0] at hok
        rw [hok] at hsp
        exact ⟨hsp.1, hsp.2.1⟩

/-- Witness for C1 as amended: a concrete kept 200 in sync mode carries
the (empty) validators' verdict, and a concrete kept 404 in async mode
carries `404 ∈ [200]` as `passed`. -/
theorem c1_passed_semantics_witness :
    ((⟨200, true, 2000, 0⟩ : SyncRecord).passed
        = runValidators cxTest.validators (⟨200, true, 2000, 0⟩ : SyncRecord).status)
    ∧ (async_single_request cxTest none (fun _ => Outcome.ok 404 1) 0).status = 404
    ∧ (async_single_request cxTest none (fun _ => Outcome.ok 404 1) 0).passed
        = cxTest.expected_status.contains 404 :=
  ⟨(c1_passed_semantics cxTest none (fun _ => Outcome.ok 200 2) 0).1
      ⟨200, true, 2000, 0⟩
      (by norm_num [run_single_http_test, syncSingleAttempt, runValidators, cxTest]),
   ((c1_passed_semantics cxTest none (fun _ => Outcome.ok 404 1) 0).2 404 1 rfl).1,
   ((c1_passed_semantics cxTest none (fun _ => Outcome.ok 404 1) 0).2 404 1 rfl).2⟩

/-- Claim C2 counterexample: with `max_retries = 2` and every attempt a
transport error of 5 s, the sync dispatcher's record is
`{status: 0, passed: false, elapsed_ms: 0, retries: 0}` — the claim
demands `retries = 2` (the retries preceding the final attempt) and
`elapsed_ms = 5000` (the final attempt's wall time), but the worker's
catch-all discards both. -/
theorem c2_counterexample :
    worker cxTest (some cfg2v) (fun _ => Outcome.err 5) 0 = ⟨0, false, 0, 0⟩
    ∧ cfg2v.max_retries.toNat = 2
    ∧ (0 : ℕ) ≠ 2 ∧ (0 : ℚ) ≠ 5 * 1000 := by
  refine ⟨?_, by decide, by decide, by norm_num⟩
  norm_num [worker, run_single_http_test, syncAttempts, cfg2v, cxTest,
    should_retry, RetryConfig.get_backoff_delay]

/-- Claim C2 as amended: a transport error exhausting all retries is
never propagated to the dispatcher's caller.  In the cooperative-async
mode the emitted record has `status = 0`, `passed = false`,
`retries = max_retries` (the retries preceding the final attempt) and
`elapsed_ms` equal to the final attempt's wall time; in the
parallel-workers mode the executor re-raises and the worker's catch-all
instead emits the fixed record `{status: 0, passed: false,
elapsed_ms: 0, retries: 0}`, losing the retry count and the timing. -/
theorem c2_transport_exhaustion (test : TestSpec) (cfg : RetryConfig)
    (att : ℕ → Outcome) (t0 : ℚ) (hm : 0 < cfg.max_retries)
    (herr : ∀ j, ∃ dd, att j = .err dd) :
    worker test (some cfg) att t0 = ⟨0, false, 0, 0⟩
    ∧ (async_single_request test (some cfg) att t0).status = 0
    ∧ (async_single_request test (some cfg) att t0).passed = false
    ∧ (async_single_request test (some cfg) att t0).retries
        = cfg.max_retries.toNat
    ∧ (async_single_request test (some cfg) att t0).elapsed_ms
        = (att (async_single_request test (some cfg) att t0).retries).dur
            * 1000 := by
  refine ⟨?_, ?_⟩
  · rw [worker, run_single_http_test, if_pos hm,
      syncAttempts_raised_of_allErr cfg att herr]
  · obtain ⟨h1, h2, h3⟩ := async_single_spec test cfg att t0 hm
    obtain ⟨dd, hdd⟩ :=
      herr (async_single_request test (some cfg) att t0).retries
    rw [hdd] at h3
    refine ⟨h3.1, h3.2.1, h3.2.2.2, ?_⟩
    rw [hdd, h3.2.2.1]
    rfl

/-- Witness for C2 as amended: `max_retries = 2` and every attempt a
5 s transport error; the sync worker yields the catch-all record and
the async executor yields status 0, two retries and the final attempt's
5000 ms. -/
theorem c2_transport_exhaustion_witness :
    worker cxTest (some cfg2v) (fun _ => Outcome.err 5) 0 = ⟨0, false, 0, 0⟩
    ∧ (async_single_request cxTest (some cfg2v) (fun _ => Outcome.err 5) 0).status = 0
    ∧ (async_single_request cxTest (some cfg2v) (fun _ => Outcome.err 5) 0).passed = false
    ∧ (async_single_request cxTest (some cfg2v) (fun _ => Outcome.err 5) 0).retries
        = cfg2v.max_retries.toNat
    ∧ (async_single_request cxTest (some cfg2v) (fun _ => Outcome.err 5) 0).elapsed_ms
        = ((fun _ => Outcome.err 5)
            (async_single_request cxTest (some cfg2v) (fun _ => Outcome.err 5) 0).retries).dur
            * 1000 :=
  c2_transport_exhaustion cxTest cfg2v (fun _ => Outcome.err 5) 0 (by decide)
    (fun _ => ⟨5, rfl⟩)

/-- Claim C4 counterexample: server always returning the retryable 500
with no validators configured — the sync record after exhausting the
budget is `{status: 500, passed: true, retries: 2}`; the claim demands
`passed = false`, but the sync executor derives `passed` from the
validators alone. -/
theorem c4_counterexample :
    worker cxTest (some cfg2v) (fun _ => Outcome.ok 500 1) 0
        = ⟨500, true, 1000, 2⟩
      ∧ should_retry 500 cfg2v = true
      ∧ cxTest.expected_status.contains 500 = false := by
  refine ⟨?_, by decide, by decide⟩
  norm_num [worker, run_single_http_test, syncAttempts, cfg2v, cxTest,
    should_retry, RetryConfig.get_backoff_delay, runValidators]

/-- Claim C4 as amended: every emitted record satisfies
`retries ≤ max_retries` (in both dispatch modes); when the server
returns only a retryable status, the emitted record carries that status
with `retries = max_retries`, but `passed` is the validators' verdict in
the parallel-workers mode (true when all pass, e.g. when there are
none) and membership of the status in `expected_status` in the
cooperative-async mode — not unconditionally false. -/
theorem c4_retries_cap (test : TestSpec) (cfg? : Option RetryConfig)
    (atts : ℕ → ℕ → Outcome) (t0s : ℕ → ℚ) (rep : ℕ)
    (cfg : RetryConfig) (att : ℕ → Outcome) (t0 : ℚ) (s : ℕ) (d : ℕ → ℚ) :
    (∀ rec ∈ syncRun test cfg? atts t0s rep, rec.retries ≤ maxRetriesNat cfg?)
    ∧ (∀ res ∈ asyncRun test cfg? atts t0s rep,
        res.retries ≤ maxRetriesNat cfg?)
    ∧ (0 < cfg.max_retries → should_retry s cfg = true →
        (∀ j, att j = .ok s (d j)) →
        worker test (some cfg) att t0
            = ⟨s, runValidators test.validators s,
                d cfg.max_retries.toNat * 1000, cfg.max_retries.toNat⟩
          ∧ (async_single_request test (some cfg) att t0).status = s
          ∧ (async_single_request test (some cfg) att t0).retries
              = cfg.max_retries.toNat
          ∧ (async_single_request test (some cfg) att t0).passed
              = test.expected_status.contains s) := by
  refine ⟨?_, ?_, ?_⟩
  · intro rec hmem
    rw [syncRun] at hmem
    obtain ⟨i, _, hw⟩ := List.mem_map.mp hmem
    rw [← hw]
    exact worker_retries_le test cfg? (atts i) (t0s i)
  · intro res hmem
    rw [asyncRun] at hmem
    obtain ⟨i, _, hw⟩ := List.mem_map.mp hmem
    rw [← hw]
    exact async_retries_le test cfg? (atts i) (t0s i)
  · intro hm hsr hconst
    constructor
    · rw [worker, run_single_http_test, if_pos hm,
        syncAttempts_const_retry cfg att s d hconst hsr _ 0 0 t0 (by omega)
          (by push_cast [Int.toNat_of_nonneg hm.le]; ring)]
      have h1 : 0 + (cfg.max_retries.toNat + 1) - 1 = cfg.max_retries.toNat := by
        omega
      rw [h1]
    · obtain ⟨h1, h2, h3⟩ := async_single_spec test cfg att t0 hm
      rw [hconst (async_single_request test (some cfg) att t0).retries] at h3
      obtain ⟨ha, hb, _, hd⟩ := h3
      exact ⟨ha, hd hsr, hb⟩

/-- Witness for C4 as amended: `max_retries = 2`, every attempt a 500
taking 1 s.  The sync worker emits the 500 with 2 retries and the empty
validators' verdict `true`, and the async executor emits status 500. -/
theorem c4_retries_cap_witness :
    worker cxTest (some cfg2v) (fun _ => Outcome.ok 500 1) 0
        = ⟨500, runValidators cxTest.validators 500,
            (fun _ => (1 : ℚ)) cfg2v.max_retries.toNat * 1000,
            cfg2v.max_retries.toNat⟩
    ∧ (async_single_request cxTest (some cfg2v) (fun _ => Outcome.ok 500 1) 0).status
        = 500
    ∧ (async_single_request cxTest (some cfg2v) (fun _ => Outcome.ok 500 1) 0).retries
        = cfg2v.max_retries.toNat := by
  have h := (c4_retries_cap cxTest (some cfg2v) (fun _ _ => Outcome.ok 500 1)
    (fun _ => 0) 1 cfg2v (fun _ => Outcome.ok 500 1) 0 500 (fun _ => 1)).2.2
    (by decide) (by decide) (fun _ => rfl)
  exact ⟨h.1, h.2.1, h.2.2.1⟩

/-- Claim C5: whenever the retry loop is active, a record emitted for a
kept response (sync) or any async record reports as `elapsed_ms` exactly
the duration of the attempt indexed by its own `retries` field — the
final attempt — times 1000: the timer is reset after every backoff
sleep, so earlier attempts and sleeps never contribute. -/
theorem c5_elapsed_final_attempt (test : TestSpec) (cfg : RetryConfig)
    (att : ℕ → Outcome) (t0 : ℚ) (hm : 0 < cfg.max_retries) :
    (∀ rec, run_single_http_test test (some cfg) att t0 = .record rec →
      rec.elapsed_ms = (att rec.retries).dur * 1000)
    ∧ (async_single_request test (some cfg) att t0).elapsed_ms
        = (att (async_single_request test (some cfg) att t0).retries).dur
            * 1000 := by
  constructor
  · intro rec h
    rw [run_single_http_test, if_pos hm] at h
    cases hk : syncAttempts cfg att 0 (cfg.max_retries.toNat + 1) t0 t0 0 with
    | kept st e r' =>
      rw [hk] at h
      obtain ⟨_, _, h3, _⟩ := syncAttempts_kept cfg att _ 0 0 t0 st e r' rfl hk
      obtain h5 := SyncOutcome.record.inj h
      rw [← h5]
      dsimp only
      rw [h3]
      rfl
    | raised =>
      rw [hk] at h
      exact absurd h (by simp)
  · obtain ⟨h1, h2, h3⟩ := async_single_spec test cfg att t0 hm
    cases hatt : att (async_single_request test (some cfg) att t0).retries with
    | ok st dd =>
      rw [hatt] at h3
      rw [h3.2.2.1]
      rfl
    | err dd =>
      rw [hatt] at h3
      rw [h3.2.2.1]
      rfl

/-- Witness for C5: first attempt a retryable 500 taking 3 s, second a
kept 200 taking 7 s; the sync record reports 7000 ms for attempt 1, its
own retry count. -/
theorem c5_elapsed_final_attempt_witness :
    (⟨200, true, 7000, 1⟩ : SyncRecord).elapsed_ms
        = (attRetryThenOk (⟨200, true, 7000, 1⟩ : SyncRecord).retries).dur
            * 1000 :=
  (c5_elapsed_final_attempt cxTest cfg2v attRetryThenOk 0 (by decide)).1
    ⟨200, true, 7000, 1⟩
    (by norm_num [run_single_http_test, syncAttempts, cfg2v, cxTest,
      attRetryThenOk, should_retry, RetryConfig.get_backoff_delay,
      runValidators])

/-- Claim C7 counterexample: with `threshold_ms` set to 0, the sync
summary omits `threshold_exceeded` — Python's `if threshold:` treats a
set-but-zero threshold as absent, although the claim promises the field
whenever a threshold is set.  (The async summary, as its structure
shows, has no `threshold_exceeded` field at all.) -/
theorem c7_counterexample :
    (syncSummary ⟨none, some 0, none, none, none, none⟩ 1
        [⟨200, true, 5, 0⟩] 1).threshold_exceeded = none
      ∧ (⟨none, some 0, none, none, none, none⟩ : PerfSpec).threshold_ms
        = some 0 := by
  constructor
  · rw [syncSummary]
    norm_num
  · rfl

/-- Claim C7 as amended: in the parallel-workers mode the summary
contains `threshold_exceeded`, equal to the number of records whose
`elapsed_ms` strictly exceeds the threshold, exactly when `threshold_ms`
is set to a nonzero value; the field is absent when the threshold is
unset or zero.  The cooperative-async summary never contains the field
(its embedding `AsyncSummary` has no such component). -/
theorem c7_threshold_semantics (perf : PerfSpec) (rep : ℕ)
    (results : List SyncRecord) (wall : ℚ) :
    (∀ t, perf.threshold_ms = some t → t ≠ 0 →
      (syncSummary perf rep results wall).threshold_exceeded
        = some ((results.map (fun r => r.elapsed_ms)).filter
            (fun x => decide (t < x))).length)
    ∧ (perf.threshold_ms = none →
      (syncSummary perf rep results wall).threshold_exceeded = none)
    ∧ (perf.threshold_ms = some 0 →
      (syncSummary perf rep results wall).threshold_exceeded = none) := by
  refine ⟨?_, ?_, ?_⟩
  · intro t ht hne
    rw [syncSummary]
    dsimp only
    rw [ht]
    dsimp only
    rw [if_neg hne]
  · intro ht
    rw [syncSummary]
    dsimp only
    rw [ht]
  · intro ht
    rw [syncSummary]
    dsimp only
    rw [ht]
    dsimp only
    rw [if_pos rfl]

/-- Witness for C7 as amended, at a nonzero threshold of 1 ms over two
records of 5 ms and 0.5 ms: the field is present and counts one
record. -/
theorem c7_threshold_semantics_witness :
    (syncSummary ⟨none, some 1, none, none, none, none⟩ 2
        [⟨200, true, 5, 0⟩, ⟨200, true, 1/2, 0⟩] 1).threshold_exceeded
      = some ((([⟨200, true, 5, 0⟩, ⟨200, true, 1/2, 0⟩] :
            List SyncRecord).map (fun r => r.elapsed_ms)).filter
          (fun x => decide ((1 : ℚ) < x))).length :=
  (c7_threshold_semantics ⟨none, some 1, none, none, none, none⟩ 2
    [⟨200, true, 5, 0⟩, ⟨200, true, 1/2, 0⟩] 1).1 1 rfl (by norm_num)

/-- Claim C8 counterexample: with no timeout anywhere in the inputs,
the sync per-attempt deadline is the TestSpec default 30 s, but the
async dispatcher configures a 300 s total deadline taken from the
performance mapping — not the TestSpec's timeout field. -/
theorem c8_counterexample :
    syncRequestTimeout cxTest = 30
    ∧ asyncTotalTimeout perfEmpty = 300
    ∧ (300 : ℚ) ≠ 30 := by
  refine ⟨rfl, rfl, by norm_num⟩

/-- Claim C8 as amended: the parallel-workers mode enforces the
TestSpec's `timeout` (default 30 s) on every attempt; the
cooperative-async mode instead enforces a session-level deadline taken
from the performance mapping's `timeout` key (default 300 s total,
10 s connect) and ignores the TestSpec's `timeout` field. -/
theorem c8_timeout_semantics (test : TestSpec) (perf : PerfSpec) :
    (∀ τ, test.timeout = some τ → syncRequestTimeout test = τ)
    ∧ (test.timeout = none → syncRequestTimeout test = 30)
    ∧ (∀ τ, perf.timeout = some τ → asyncTotalTimeout perf = τ)
    ∧ (perf.timeout = none → asyncTotalTimeout perf = 300)
    ∧ (perf.connect_timeout = none → asyncConnectTimeout perf = 10) := by
  refine ⟨?_, ?_, ?_, ?_, ?_⟩
  · intro τ h; rw [syncRequestTimeout, h]; rfl
  · intro h; rw [syncRequestTimeout, h]; rfl
  · intro τ h; rw [asyncTotalTimeout, h]; rfl
  · intro h; rw [asyncTotalTimeout, h]; rfl
  · intro h; rw [asyncConnectTimeout, h]; rfl

/-- Witness for C8 as amended: a TestSpec with a 5 s timeout and an
empty performance mapping. -/
theorem c8_timeout_semantics_witness :
    syncRequestTimeout cxTest5 = 5
    ∧ asyncTotalTimeout perfEmpty = 300
    ∧ asyncConnectTimeout perfEmpty = 10 :=
  ⟨(c8_timeout_semantics cxTest5 perfEmpty).1 5 rfl,
   (c8_timeout_semantics cxTest5 perfEmpty).2.2.2.1 rfl,
   (c8_timeout_semantics cxTest5 perfEmpty).2.2.2.2 rfl⟩

/-- Claim C10: the unified entry point has no mode-independent return
type — with `mode = 'async'` it returns the raw list of per-request
records and never a summary; on any other mode it returns the
aggregated summary and never a record list. -/
theorem c10_mode_return (test : TestSpec) (perf : PerfSpec)
    (cfg? : Option RetryConfig) (atts : ℕ → ℕ → Outcome) (t0s : ℕ → ℚ)
    (rep : ℕ) (wall : ℚ) :
    (perf.mode.getD "sync" = "async" →
      run_performance_test test perf cfg? atts t0s rep wall
          = .records (asyncRun test cfg? atts t0s rep)
        ∧ ∀ s, run_performance_test test perf cfg? atts t0s rep wall
            ≠ .summary s)
    ∧ (perf.mode.getD "sync" ≠ "async" →
      run_performance_test test perf cfg? atts t0s rep wall
          = .summary (syncSummary perf rep
              (syncRun test cfg? atts t0s rep) wall)
        ∧ ∀ rs, run_performance_test test perf cfg? atts t0s rep wall
            ≠ .records rs) := by
  constructor
  · intro h
    rw [run_performance_test, if_pos h]
    exact ⟨rfl, fun s hs => by simp at hs⟩
  · intro h
    rw [run_performance_test, if_neg h]
    exact ⟨rfl, fun rs hs => by simp at hs⟩

/-- Witness for C10: a concrete async-mode run returns the record list;
a concrete default-mode run returns the summary. -/
theorem c10_mode_return_witness :
    run_performance_test cxTest ⟨some "async", none, none, none, none, none⟩
        none (fun _ _ => Outcome.ok 200 1) (fun _ => 0) 1 1
      = .records (asyncRun cxTest none (fun _ _ => Outcome.ok 200 1)
          (fun _ => 0) 1)
    ∧ run_performance_test cxTest perfEmpty none
        (fun _ _ => Outcome.ok 200 1) (fun _ => 0) 1 1
      = .summary (syncSummary perfEmpty 1
          (syncRun cxTest none (fun _ _ => Outcome.ok 200 1) (fun _ => 0) 1) 1) :=
  ⟨((c10_mode_return cxTest ⟨some "async", none, none, none, none, none⟩
      none (fun _ _ => Outcome.ok 200 1) (fun _ => 0) 1 1).1 rfl).1,
   ((c10_mode_return cxTest perfEmpty none (fun _ _ => Outcome.ok 200 1)
      (fun _ => 0) 1 1).2 (by decide)).1⟩

/-- In a non-decreasing sorted list, values at valid indices are
monotone in the index. -/
theorem sorted_getD_mono (s : List ℚ) (hs : s.Sorted (· ≤ ·))
    (i j : ℕ) (hij : i ≤ j) (hj : j < s.length) :
    s.getD i 0 ≤ s.getD j 0 := by
  have hi : i < s.length := lt_of_le_of_lt hij hj
  rw [List.getD_eq_getElem s 0 hi, List.getD_eq_getElem s 0 hj]
  rcases eq_or_lt_of_le hij with rfl | hlt
  · exact le_refl _
  · exact List.pairwise_iff_get.mp hs ⟨i, hi⟩ ⟨j, hj⟩ hlt

/-- The floor-based index is a lower bound on the rank. -/
theorem floor_toNat_cast_le (k : ℚ) (hk0 : 0 ≤ k) :
    ((⌊k⌋).toNat : ℚ) ≤ k := by
  have h1 : (0 : ℤ) ≤ ⌊k⌋ := Int.floor_nonneg.mpr hk0
  have h2 : (((⌊k⌋).toNat : ℤ) : ℚ) ≤ k := by
    rw [Int.toNat_of_nonneg h1]
    exact Int.floor_le k
  exact_mod_cast h2

/-- The rank is below the floor-based index plus one. -/
theorem lt_floor_toNat_add_one (k : ℚ) (hk0 : 0 ≤ k) :
    k < ((⌊k⌋).toNat : ℚ) + 1 := by
  have h1 : (0 : ℤ) ≤ ⌊k⌋ := Int.floor_nonneg.mpr hk0
  have h4 : ((⌊k⌋).toNat : ℚ) = ((⌊k⌋ : ℤ) : ℚ) := by
    exact_mod_cast congrArg (Int.cast : ℤ → ℚ) (Int.toNat_of_nonneg h1)
  rw [h4]
  exact Int.lt_floor_add_one k

/-- A rank bounded by `n - 1` has its floor index bounded by
`n - 1`. -/
theorem floor_toNat_le_of_le (k : ℚ) (n : ℕ) (hn : 1 ≤ n)
    (hk1 : k ≤ (n : ℚ) - 1) : (⌊k⌋).toNat ≤ n - 1 := by
  have h2 : ⌊k⌋ ≤ ⌊((n : ℚ) - 1)⌋ := Int.floor_le_floor hk1
  have h3 : ⌊((n : ℚ) - 1)⌋ = (n : ℤ) - 1 := by
    rw [show ((n : ℚ) - 1) = (((n : ℤ) - 1 : ℤ) : ℚ) by push_cast; ring,
      Int.floor_intCast]
  omega

/-- The two reachable shapes of `_percentile`: either the clamped upper
index collapses onto the floor index (`f == c`), or the next index is
still in range and the value interpolates between two adjacent sorted
entries. -/
theorem pctK_cases (s : List ℚ) (k : ℚ) (hne : s ≠ []) (hk0 : 0 ≤ k)
    (hk1 : k ≤ (s.length : ℚ) - 1) :
    ((⌊k⌋).toNat = min ((⌊k⌋).toNat + 1) (s.length - 1)
      ∧ pctK s k = s.getD (⌊k⌋).toNat 0)
    ∨ ((⌊k⌋).toNat + 1 ≤ s.length - 1
      ∧ min ((⌊k⌋).toNat + 1) (s.length - 1) = (⌊k⌋).toNat + 1
      ∧ pctK s k
        = s.getD (⌊k⌋).toNat 0 * ((((⌊k⌋).toNat + 1 : ℕ) : ℚ) - k)
          + s.getD ((⌊k⌋).toNat + 1) 0 * (k - ((⌊k⌋).toNat : ℚ))) := by
  have hn : 1 ≤ s.length := List.length_pos.mpr hne
  have hFle : (⌊k⌋).toNat ≤ s.length - 1 := floor_toNat_le_of_le k s.length hn hk1
  by_cases h : (⌊k⌋).toNat = min ((⌊k⌋).toNat + 1) (s.length - 1)
  · left
    exact ⟨h, by rw [pctK, if_pos h]⟩
  · right
    rcases le_or_lt ((⌊k⌋).toNat + 1) (s.length - 1) with hle | hgt
    · have hmin : min ((⌊k⌋).toNat + 1) (s.length - 1) = (⌊k⌋).toNat + 1 :=
        Nat.min_eq_left hle
      refine ⟨hle, hmin, ?_⟩
      rw [pctK, if_neg h, hmin]
    · exfalso
      apply h
      have hmin : min ((⌊k⌋).toNat + 1) (s.length - 1) = s.length - 1 :=
        Nat.min_eq_right (by omega)
      omega

/-- The interpolated percentile is at least the sorted entry at the
floor index. -/
theorem getD_le_pctK (s : List ℚ) (hs : s.Sorted (· ≤ ·)) (k : ℚ)
    (hne : s ≠ []) (hk0 : 0 ≤ k) (hk1 : k ≤ (s.length : ℚ) - 1) :
    s.getD (⌊k⌋).toNat 0 ≤ pctK s k := by
  have hn : 1 ≤ s.length := List.length_pos.mpr hne
  rcases pctK_cases s k hne hk0 hk1 with ⟨_, he⟩ | ⟨h1, _, he⟩
  · rw [he]
  · rw [he]
    have hAB : s.getD (⌊k⌋).toNat 0 ≤ s.getD ((⌊k⌋).toNat + 1) 0 :=
      sorted_getD_mono s hs _ _ (Nat.le_succ _) (by omega)
    have hfk : ((⌊k⌋).toNat : ℚ) ≤ k := floor_toNat_cast_le k hk0
    have hk2 : k < ((⌊k⌋).toNat : ℚ) + 1 := lt_floor_toNat_add_one k hk0
    have hprod : 0 ≤ (k - ((⌊k⌋).toNat : ℚ))
        * (s.getD ((⌊k⌋).toNat + 1) 0 - s.getD (⌊k⌋).toNat 0) :=
      mul_nonneg (by linarith) (by linarith)
    push_cast
    nlinarith [hprod]

/-- The interpolated percentile is at most the sorted entry at the
clamped upper index. -/
theorem pctK_le_getD (s : List ℚ) (hs : s.Sorted (· ≤ ·)) (k : ℚ)
    (hne : s ≠ []) (hk0 : 0 ≤ k) (hk1 : k ≤ (s.length : ℚ) - 1) :
    pctK s k ≤ s.getD (min ((⌊k⌋).toNat + 1) (s.length - 1)) 0 := by
  have hn : 1 ≤ s.length := List.length_pos.mpr hne
  rcases pctK_cases s k hne hk0 hk1 with ⟨h1, he⟩ | ⟨h1, hmin, he⟩
  · rw [he, ← h1]
  · rw [he, hmin]
    have hAB : s.getD (⌊k⌋).toNat 0 ≤ s.getD ((⌊k⌋).toNat + 1) 0 :=
      sorted_getD_mono s hs _ _ (Nat.le_succ _) (by omega)
    have hfk : ((⌊k⌋).toNat : ℚ) ≤ k := floor_toNat_cast_le k hk0
    have hk2 : k < ((⌊k⌋).toNat : ℚ) + 1 := lt_floor_toNat_add_one k hk0
    have hprod : 0 ≤ (((⌊k⌋).toNat : ℚ) + 1 - k)
        * (s.getD ((⌊k⌋).toNat + 1) 0 - s.getD (⌊k⌋).toNat 0) :=
      mul_nonneg (by linarith) (by linarith)
    push_cast
    nlinarith [hprod]

/-- Over a sorted list, the interpolated percentile is monotone in the
rank. -/
theorem pctK_mono (s : List ℚ) (hs : s.Sorted (· ≤ ·)) (hne : s ≠ [])
    (k1 k2 : ℚ) (hk0 : 0 ≤ k1) (h12 : k1 ≤ k2)
    (hk2 : k2 ≤ (s.length : ℚ) - 1) : pctK s k1 ≤ pctK s k2 := by
  have hn : 1 ≤ s.length := List.length_pos.mpr hne
  have hk20 : 0 ≤ k2 := le_trans hk0 h12
  have hk11 : k1 ≤ (s.length : ℚ) - 1 := le_trans h12 hk2
  by_cases hf : (⌊k1⌋).toNat = (⌊k2⌋).toNat
  · rcases pctK_cases s k1 hne hk0 hk11 with ⟨h1, e1⟩ | ⟨h1, hmin1, e1⟩
    · rcases pctK_cases s k2 hne hk20 hk2 with ⟨h2, e2⟩ | ⟨h2, hmin2, e2⟩
      · rw [e1, e2, hf]
      · exfalso
        rw [hf] at h1
        omega
    · rcases pctK_cases s k2 hne hk20 hk2 with ⟨h2, e2⟩ | ⟨h2, hmin2, e2⟩
      · exfalso
        rw [hf] at h1
        omega
      · rw [e1, e2, hf]
        have hAB : s.getD (⌊k2⌋).toNat 0 ≤ s.getD ((⌊k2⌋).toNat + 1) 0 :=
          sorted_getD_mono s hs _ _ (Nat.le_succ _) (by omega)
        push_cast
        nlinarith [hAB, h12]
  · have hfle : ⌊k1⌋ ≤ ⌊k2⌋ := Int.floor_le_floor h12
    have h01 : (0 : ℤ) ≤ ⌊k1⌋ := Int.floor_nonneg.mpr hk0
    have hflt : (⌊k1⌋).toNat < (⌊k2⌋).toNat := by omega
    have hF2le : (⌊k2⌋).toNat ≤ s.length - 1 :=
      floor_toNat_le_of_le k2 s.length hn hk2
    calc pctK s k1
        ≤ s.getD (min ((⌊k1⌋).toNat + 1) (s.length - 1)) 0 :=
          pctK_le_getD s hs k1 hne hk0 hk11
      _ ≤ s.getD (⌊k2⌋).toNat 0 :=
          sorted_getD_mono s hs _ _
            (le_trans (min_le_left _ _) (by omega)) (by omega)
      _ ≤ pctK s k2 := getD_le_pctK s hs k2 hne hk20 hk2

/-- The clamped-index formula of `_percentile` agrees with the
floor/ceil formula as worded by the specification, for percentiles in
`[0, 100]` over a nonempty list. -/
theorem pctCode_eq_pctSpec (s : List ℚ) (p : ℚ) (hne : s ≠ [])
    (h0 : 0 ≤ p) (h100 : p ≤ 100) : pctCode s p = pctSpec s p := by
  have hn : 1 ≤ s.length := List.length_pos.mpr hne
  have hn' : (0 : ℚ) ≤ (s.length : ℚ) - 1 := by
    have : (1 : ℚ) ≤ (s.length : ℚ) := by exact_mod_cast hn
    linarith
  rw [pctCode, pctSpec, pctK]
  set k : ℚ := ((s.length : ℚ) - 1) * (p / 100) with hkdef
  have hk0 : 0 ≤ k := mul_nonneg hn' (by positivity)
  have hk1 : k ≤ (s.length : ℚ) - 1 := by
    have hp1 : p / 100 ≤ 1 := by linarith
    calc k ≤ ((s.length : ℚ) - 1) * 1 :=
          mul_le_mul_of_nonneg_left hp1 hn'
      _ = (s.length : ℚ) - 1 := mul_one _
  have h01 : (0 : ℤ) ≤ ⌊k⌋ := Int.floor_nonneg.mpr hk0
  have hFle : (⌊k⌋).toNat ≤ s.length - 1 :=
    floor_toNat_le_of_le k s.length hn hk1
  by_cases hint : ((⌊k⌋ : ℤ) : ℚ) = k
  · have hceil : ⌈k⌉ = ⌊k⌋ := by
      rw [← hint]
      exact Int.ceil_intCast ⌊k⌋
    rw [hceil]
    rw [if_pos rfl]
    by_cases hfe : (⌊k⌋).toNat + 1 ≤ s.length - 1
    · have hmin : min ((⌊k⌋).toNat + 1) (s.length - 1) = (⌊k⌋).toNat + 1 :=
        Nat.min_eq_left hfe
      rw [hmin, if_neg (by omega)]
      have hFk : ((⌊k⌋).toNat : ℚ) = k := by
        rw [← hint]
        exact_mod_cast congrArg (Int.cast : ℤ → ℚ) (Int.toNat_of_nonneg h01)
      have e1 : ((((⌊k⌋).toNat + 1 : ℕ)) : ℚ) - k = 1 := by
        push_cast
        linarith [hFk]
      have e2 : k - ((⌊k⌋).toNat : ℚ) = 0 := by linarith [hFk]
      rw [e1, e2]
      ring
    · have hmin : min ((⌊k⌋).toNat + 1) (s.length - 1) = s.length - 1 :=
        Nat.min_eq_right (by omega)
      rw [hmin, if_pos (by omega)]
  · have hceil : ⌈k⌉ = ⌊k⌋ + 1 := by
      have hcl : ⌈k⌉ ≤ ⌊k⌋ + 1 := Int.ceil_le_floor_add_one k
      have hcg : ⌊k⌋ ≤ ⌈k⌉ := Int.floor_le_ceil k
      rcases eq_or_lt_of_le hcg with heq | hlt
      · exfalso
        apply hint
        have hle1 : k ≤ ((⌈k⌉ : ℤ) : ℚ) := Int.le_ceil k
        have hle2 : ((⌊k⌋ : ℤ) : ℚ) ≤ k := Int.floor_le k
        rw [← heq] at hle1
        linarith
      · omega
    have hklt : k < (s.length : ℚ) - 1 := by
      rcases lt_or_eq_of_le hk1 with h | h
      · exact h
      · exfalso
        apply hint
        rw [h, show ((s.length : ℚ) - 1) = (((s.length : ℤ) - 1 : ℤ) : ℚ) by
          push_cast; ring, Int.floor_intCast]
    have hceil_le : ⌈k⌉ ≤ (s.length : ℤ) - 1 := by
      rw [Int.ceil_le]
      push_cast
      exact hk1
    have hF1 : (⌊k⌋).toNat + 1 ≤ s.length - 1 := by omega
    have hceilNat : (⌈k⌉).toNat = (⌊k⌋).toNat + 1 := by omega
    have hmin : min ((⌊k⌋).toNat + 1) (s.length - 1) = (⌊k⌋).toNat + 1 :=
      Nat.min_eq_left hF1
    rw [hceilNat, hmin, if_neg (by omega)]

/-- Claim C6: over the sorted nonempty elapsed times and requested
percentiles in `[0, 100]`, `_percentile` computes exactly the
linear-interpolation formula of the specification (`f = floor(k)`,
`c = ceil(k)`, `s[k]` when `f = c`, else `s[f]*(c-k) + s[c]*(k-f)`), and
the result is monotone in the requested percentile; the summary's
percentile fields are exactly these values over `sorted(times)`. -/
theorem c6_percentile (times : List ℚ) (p1 p2 : ℚ) (hne : times ≠ [])
    (h0 : 0 ≤ p1) (h12 : p1 ≤ p2) (h100 : p2 ≤ 100) :
    pctCode (times.insertionSort (· ≤ ·)) p1
        = pctSpec (times.insertionSort (· ≤ ·)) p1
    ∧ pctCode (times.insertionSort (· ≤ ·)) p2
        = pctSpec (times.insertionSort (· ≤ ·)) p2
    ∧ pctCode (times.insertionSort (· ≤ ·)) p1
        ≤ pctCode (times.insertionSort (· ≤ ·)) p2
    ∧ (∀ (perf : PerfSpec) (rep : ℕ) (results : List SyncRecord) (wall : ℚ)
        (ps : List ℚ),
        perf.percentiles = some ps → ps ≠ [] →
        results.map (fun r => r.elapsed_ms) ≠ [] →
        (syncSummary perf rep results wall).pct_fields
          = ps.map fun p =>
              (p, pctCode ((results.map (fun r => r.elapsed_ms)).insertionSort
                (· ≤ ·)) p)) := by
  have hlen : (times.insertionSort (· ≤ ·)).length = times.length :=
    List.length_insertionSort _ _
  have hsne : times.insertionSort (· ≤ ·) ≠ [] := by
    intro h
    rw [h] at hlen
    exact hne (List.eq_nil_of_length_eq_zero hlen.symm)
  have hs : (times.insertionSort (· ≤ ·)).Sorted (· ≤ ·) :=
    List.sorted_insertionSort _ _
  have hn : 1 ≤ (times.insertionSort (· ≤ ·)).length :=
    List.length_pos.mpr hsne
  have hn' : (0 : ℚ) ≤ ((times.insertionSort (· ≤ ·)).length : ℚ) - 1 := by
    have : (1 : ℚ) ≤ ((times.insertionSort (· ≤ ·)).length : ℚ) := by
      exact_mod_cast hn
    linarith
  refine ⟨pctCode_eq_pctSpec _ p1 hsne h0 (le_trans h12 h100),
    pctCode_eq_pctSpec _ p2 hsne (le_trans h0 h12) h100, ?_, ?_⟩
  · rw [pctCode, pctCode]
    apply pctK_mono _ hs hsne
    · exact mul_nonneg hn' (by positivity)
    · exact mul_le_mul_of_nonneg_left (by linarith) hn'
    · have hp1 : p2 / 100 ≤ 1 := by linarith
      have h2 := mul_le_mul_of_nonneg_left hp1 hn'
      rw [mul_one] at h2
      exact h2
  · intro perf rep results wall ps hps hpsne htne
    rw [syncSummary]
    dsimp only
    rw [hps]
    dsimp only
    rw [if_pos ⟨hpsne, htne⟩]

/-- Witness for C6 at `times = [3, 1, 2]`, `p1 = 50`, `p2 = 95`:
equality of the two formulas at 50 and monotonicity from 50 to 95. -/
theorem c6_percentile_witness :
    pctCode ([(3 : ℚ), 1, 2].insertionSort (· ≤ ·)) 50
        = pctSpec ([(3 : ℚ), 1, 2].insertionSort (· ≤ ·)) 50
    ∧ pctCode ([(3 : ℚ), 1, 2].insertionSort (· ≤ ·)) 50
        ≤ pctCode ([(3 : ℚ), 1, 2].insertionSort (· ≤ ·)) 95 := by
  have h := c6_percentile [3, 1, 2] 50 95 (by decide) (by norm_num)
    (by norm_num) (by norm_num)
  exact ⟨h.1, h.2.2.1⟩
